import Mathlib

/-!
Shallow embedding of `src/bollie-retain.c` (bollieretain.lv2), the Retain
Engine: a capture/loop audio effect.  C `int` values are modelled as `ℤ`
(C integer division truncates toward zero, as does `Int.div`); audio
samples and gain coefficients (C `float`) are modelled as `ℚ`, idealising
the float rounding; the two fixed tape buffers are modelled as total
functions `ℤ → ℚ` (index to stored sample).  The per-sample body of the
C `run` loop becomes `step`; the whole block call becomes `run`, which
first latches the trigger into `listening` and computes the block gain
targets, exactly as the C code does before entering its loop.
-/

/-- Capacity of the two tape buffers (`#define MAX_TAPE_LEN 960000`). -/
def MAX_TAPE_LEN : ℤ := 960000

/-- State of one plugin instance: the persistent fields of the C struct
`BollieRetain` (ports excluded; they are the per-block inputs/outputs). -/
structure BollieRetain where
  n_loop_samples : ℤ
  n_fade_samples : ℤ
  pos_w : ℤ
  pos_r : ℤ
  listening : Bool
  looping : Bool
  dry_gain : ℚ
  wet_gain : ℚ
  buffer_l : ℤ → ℚ
  buffer_r : ℤ → ℚ

/-- `instantiate`: `calloc` zeroes every field, then the C code sets
`n_fade_samples = rate` and `n_loop_samples = 5*rate` (the earlier
`ceil(0.2*rate)` / `ceil(0.5*rate)` assignments are dead, immediately
overwritten).  The double→int conversion is exact for integer rates,
so `rate : ℤ`.  There is no failure path: a state is always returned. -/
def instantiate (rate : ℤ) : BollieRetain where
  n_loop_samples := 5 * rate
  n_fade_samples := rate
  pos_w := 0
  pos_r := 0
  listening := false
  looping := false
  dry_gain := 0
  wet_gain := 0
  buffer_l := fun _ => 0
  buffer_r := fun _ => 0

/-- `activate`: zero both buffers, reset cursors and gains, clear
`listening`, set `looping`. -/
def activate (s : BollieRetain) : BollieRetain :=
  { s with
    buffer_l := fun _ => 0
    buffer_r := fun _ => 0
    pos_r := 0
    pos_w := 0
    dry_gain := 0
    wet_gain := 0
    listening := false
    looping := true }

/-- One step of the per-sample gain smoother:
`gain = target*0.01f + gain*0.99f`. -/
def smooth (target g : ℚ) : ℚ := target * (1/100) + g * (99/100)

/-- The capture-time fade coefficient, exactly as computed by the C code
inside the `pos_w < n_loop_samples` branch: `coeff` starts at `1.0f` and
the two fade branches assign `1/n_fade_samples * pos_w` resp.
`1/n_fade_samples * (n_loop_samples-1 - pos_w)`.  All three operands are
C `int`s, so `1/n_fade_samples` is an integer division (`Int.div`
truncates toward zero like C99 `/`); the integer result is then converted
to `float` on assignment. -/
def captureCoeff (n_fade n_loop pos_w : ℤ) : ℤ :=
  if pos_w < n_fade then Int.tdiv 1 n_fade * pos_w
  else if n_loop - n_fade ≤ pos_w then Int.tdiv 1 n_fade * (n_loop - 1 - pos_w)
  else 1

/-- Per-block gain-target computation from the blend control
(lines 185–201 of the C source), with the `powf(10, ·)` float power
abstracted as `pow10 : ℚ → ℚ`.  Returns `(target_dry_gain,
target_wet_gain)`; the branch chain is in source order. -/
def targetGains (pow10 : ℚ → ℚ) (ctl_blend : ℚ) : ℚ × ℚ :=
  if 0 < ctl_blend ∧ ctl_blend < 50 then
    (1, pow10 ((ctl_blend - 50) * (4/100)))
  else if ctl_blend < 100 ∧ 50 < ctl_blend then
    (pow10 ((ctl_blend - 50) * (-(4/100))), 1)
  else if ctl_blend = 50 then (1, 1)
  else if ctl_blend = 100 then (0, 1)
  else (1, 0)

/-- One iteration of the C `run` sample loop (lines 204–259): smooth both
gains, then either capture (`listening && !looping`), play back
(`else if (looping)`), or pass through; finally mix the output sample.
Returns the new state and the `(output_l[i], output_r[i])` pair. -/
def step (tdry twet inl inr : ℚ) (s : BollieRetain) : BollieRetain × ℚ × ℚ :=
  let wg := smooth twet s.wet_gain
  let dg := smooth tdry s.dry_gain
  if s.listening = true ∧ s.looping = false then
    if s.pos_w < s.n_loop_samples then
      let c : ℚ := ((captureCoeff s.n_fade_samples s.n_loop_samples s.pos_w : ℤ) : ℚ)
      ({ s with
          buffer_l := fun j => if j = s.pos_w then inl * c else s.buffer_l j
          buffer_r := fun j => if j = s.pos_w then inr * c else s.buffer_r j
          pos_w := s.pos_w + 1
          dry_gain := dg
          wet_gain := wg },
       inl * dg + 0 * wg, inr * dg + 0 * wg)
    else
      ({ s with
          listening := false
          looping := true
          pos_w := 0
          dry_gain := dg
          wet_gain := wg },
       inl * dg + 0 * wg, inr * dg + 0 * wg)
  else if s.looping = true then
    let wsl :=
      if s.n_loop_samples - s.n_fade_samples ≤ s.pos_r ∧ s.listening = false then
        s.buffer_l s.pos_r + s.buffer_l (s.pos_r - (s.n_loop_samples - s.n_fade_samples))
      else s.buffer_l s.pos_r
    let wsr :=
      if s.n_loop_samples - s.n_fade_samples ≤ s.pos_r ∧ s.listening = false then
        s.buffer_r s.pos_r + s.buffer_r (s.pos_r - (s.n_loop_samples - s.n_fade_samples))
      else s.buffer_r s.pos_r
    let pr1 := s.pos_r + 1
    ({ s with
        pos_r :=
          if s.n_loop_samples ≤ pr1 then
            (if s.listening = true then 0 else s.n_fade_samples)
          else pr1
        looping := if s.n_loop_samples ≤ pr1 ∧ s.listening = true then false else s.looping
        dry_gain := dg
        wet_gain := wg },
     inl * dg + wsl * wg, inr * dg + wsr * wg)
  else
    ({ s with dry_gain := dg, wet_gain := wg },
     inl * dg + 0 * wg, inr * dg + 0 * wg)

/-- Buffer indices read or written by one `step`, mirroring its branch
structure (the capture branch writes `buffer_l`/`buffer_r` at `pos_w`;
the crossfade playback branch reads `pos_r` and the folded-back head
index; plain playback reads `pos_r`). -/
def stepAccesses (s : BollieRetain) : List ℤ :=
  if s.listening = true ∧ s.looping = false then
    if s.pos_w < s.n_loop_samples then [s.pos_w] else []
  else if s.looping = true then
    if s.n_loop_samples - s.n_fade_samples ≤ s.pos_r ∧ s.listening = false then
      [s.pos_r, s.pos_r - (s.n_loop_samples - s.n_fade_samples)]
    else [s.pos_r]
  else []

/-- Fold `step` over the samples of a block, collecting the outputs. -/
def processBlock (tdry twet : ℚ) (inputs : List (ℚ × ℚ)) (s : BollieRetain) :
    BollieRetain × List (ℚ × ℚ) :=
  match inputs with
  | [] => (s, [])
  | (il, ir) :: rest =>
      let r1 := step tdry twet il ir s
      let r2 := processBlock tdry twet rest r1.1
      (r2.1, r1.2 :: r2.2)

/-- All buffer indices accessed while processing a block. -/
def blockAccesses (tdry twet : ℚ) (inputs : List (ℚ × ℚ)) (s : BollieRetain) :
    List ℤ :=
  match inputs with
  | [] => []
  | (il, ir) :: rest =>
      stepAccesses s ++ blockAccesses tdry twet rest (step tdry twet il ir s).1

/-- The `run` entry point for one block: read the trigger once and latch
`listening` (lines 181–183), compute the gain targets once (lines
185–201), then run the sample loop; the locals are written back at the
end, which `processBlock` models by threading the state. -/
def run (pow10 : ℚ → ℚ) (ctl_trigger ctl_blend : ℚ) (inputs : List (ℚ × ℚ))
    (s : BollieRetain) : BollieRetain × List (ℚ × ℚ) :=
  let s0 : BollieRetain :=
    { s with
      listening := if 0 < ctl_trigger ∧ s.listening = false then true else s.listening }
  let t := targetGains pow10 ctl_blend
  processBlock t.1 t.2 inputs s0

/-- Buffer indices accessed by a `run` call. -/
def runAccesses (pow10 : ℚ → ℚ) (ctl_trigger ctl_blend : ℚ)
    (inputs : List (ℚ × ℚ)) (s : BollieRetain) : List ℤ :=
  blockAccesses (targetGains pow10 ctl_blend).1 (targetGains pow10 ctl_blend).2 inputs
    { s with
      listening := if 0 < ctl_trigger ∧ s.listening = false then true else s.listening }

/-- A concrete mid-capture state (`n_fade_samples = 2`, write cursor inside
the fade-in region), used to evaluate the capture path. -/
def csCapture : BollieRetain where
  n_loop_samples := 6
  n_fade_samples := 2
  pos_w := 1
  pos_r := 0
  listening := true
  looping := false
  dry_gain := 0
  wet_gain := 0
  buffer_l := fun _ => 0
  buffer_r := fun _ => 0

/-- A concrete playback state with the read cursor in the crossfade
region (`pos_r = 3 ≥ n_loop_samples - n_fade_samples = 3`) and a
non-trivial buffer content. -/
def csPlay : BollieRetain where
  n_loop_samples := 4
  n_fade_samples := 1
  pos_w := 0
  pos_r := 3
  listening := false
  looping := true
  dry_gain := 0
  wet_gain := 0
  buffer_l := fun j => (j : ℚ)
  buffer_r := fun j => (j : ℚ) * 2

/-- A degenerate state with `n_fade_samples = n_loop_samples = 1`,
allowed by the non-strict bound `n_fade_samples ≤ n_loop_samples`. -/
def csDegenerate : BollieRetain where
  n_loop_samples := 1
  n_fade_samples := 1
  pos_w := 0
  pos_r := 0
  listening := false
  looping := true
  dry_gain := 0
  wet_gain := 0
  buffer_l := fun _ => 0
  buffer_r := fun _ => 0

/-- A small well-formed playback state (`n_fade_samples = 1 <
n_loop_samples = 2`). -/
def csSmall : BollieRetain where
  n_loop_samples := 2
  n_fade_samples := 1
  pos_w := 0
  pos_r := 0
  listening := false
  looping := true
  dry_gain := 0
  wet_gain := 0
  buffer_l := fun _ => 0
  buffer_r := fun _ => 0

theorem one_tdiv_eq_zero {n : ℤ} (h : 2 ≤ n) : Int.tdiv 1 n = 0 := by
  obtain ⟨m, rfl⟩ : ∃ m : ℕ, n = (m : ℤ) := ⟨n.toNat, by omega⟩
  have hm : 2 ≤ m := by exact_mod_cast h
  show Int.ofNat (1 / m) = 0
  rw [Nat.div_eq_of_lt (by omega)]
  rfl

/-- Claim C1 (code bug): the spec says the sample stored during capture at a
fade-in position `pos_w` is `input * pos_w / n_fade_samples` with
floating-point division.  The C expression `1/n_fade_samples * pos_w` is
an integer division, so with `n_fade_samples = 2`, `pos_w = 1` and input
`1.0` the code stores `0` in both buffers, while the spec requires
`1 * (1/2) = 1/2 ≠ 0`. -/
theorem capture_fade_integer_truncation :
    ((step 0 0 1 1 csCapture).1).buffer_l 1 = 0 ∧
    ((step 0 0 1 1 csCapture).1).buffer_r 1 = 0 ∧
    (1 : ℚ) * (1 / 2) ≠ 0 := by
  refine ⟨?_, ?_, by norm_num⟩ <;>
    norm_num [step, csCapture, captureCoeff, smooth,
      show Int.tdiv 1 2 = 0 from by decide]

/-- Claim C2, counterexample: a zero-length block does NOT leave every field
unchanged — with the trigger control positive and `listening = false`,
`run` with an empty block still latches `listening` to `true`. -/
theorem run_zero_block_sets_listening :
    csPlay.listening = false ∧
    ((run (fun x => x) 1 0 [] csPlay).1).listening = true ∧
    (run (fun x => x) 1 0 [] csPlay).2 = [] := by
  refine ⟨rfl, ?_, rfl⟩
  norm_num [run, processBlock, csPlay]

/-- Claim C2 (amended): a zero-length block writes no output samples and
leaves every field unchanged except `listening`, which is set to `true`
exactly when the trigger control is positive and it was `false`. -/
theorem run_zero_block_effect (pow10 : ℚ → ℚ) (ctl_trigger ctl_blend : ℚ)
    (s : BollieRetain) :
    run pow10 ctl_trigger ctl_blend [] s =
      ({ s with
          listening :=
            if 0 < ctl_trigger ∧ s.listening = false then true else s.listening },
       []) := rfl

/-- Claim C3, counterexample: at `n_fade_samples = 2`, `n_loop_samples = 10`,
offset `o = 0`, the capture fade-out coefficient at position
`n_loop_samples - n_fade_samples + o = 8` plus the fade-in coefficient at
position `0` is `0`, not `1`. -/
theorem crossfade_coeff_sum_ne_one :
    captureCoeff 2 10 (10 - 2 + 0) + captureCoeff 2 10 0 = 0 ∧
    (0 : ℤ) ≠ 1 := by decide

/-- Claim C3 (amended): for every offset `o` in `[0, n_fade_samples)` the
capture fade-out coefficient at position `n_loop_samples - n_fade_samples + o`
plus the fade-in coefficient at position `o` equals `0`, not `1`: the
integer division `1/n_fade_samples` makes both coefficients vanish (and for
`n_fade_samples = 1` the products are `1 * 0`). -/
theorem crossfade_coeff_sum_eq_zero (n_fade n_loop o : ℤ)
    (h1 : 0 < n_fade) (h2 : 0 ≤ o) (h3 : o < n_fade)
    (h4 : 2 * n_fade ≤ n_loop) :
    captureCoeff n_fade n_loop (n_loop - n_fade + o) +
      captureCoeff n_fade n_loop o = 0 := by
  rcases eq_or_lt_of_le h1 with h | h
  · have hf : n_fade = 1 := by omega
    subst hf
    have ho : o = 0 := by omega
    subst ho
    rw [captureCoeff, captureCoeff,
        if_neg (by omega), if_pos (by omega), if_pos (by omega)]
    have ht : Int.tdiv 1 1 = 1 := rfl
    rw [ht]
    ring
  · have hz : Int.tdiv 1 n_fade = 0 := one_tdiv_eq_zero (by omega)
    rw [captureCoeff, captureCoeff,
        if_neg (by omega), if_pos (by omega), if_pos h3, hz]
    ring

/-- Witness for `crossfade_coeff_sum_eq_zero` at `n_fade_samples = 2`,
`n_loop_samples = 10`, `o = 1`. -/
theorem crossfade_coeff_sum_eq_zero_witness :
    (0 : ℤ) < 2 ∧ (0 : ℤ) ≤ 1 ∧ (1 : ℤ) < 2 ∧ (2 * 2 : ℤ) ≤ 10 ∧
    captureCoeff 2 10 (10 - 2 + 1) + captureCoeff 2 10 1 = 0 :=
  ⟨by decide, by decide, by decide, by decide,
    crossfade_coeff_sum_eq_zero 2 10 1 (by decide) (by decide) (by decide)
      (by decide)⟩

/-- Claim C8: with `n_fade_samples = 0` neither fade branch is reachable
for a valid write position (`0 ≤ pos_w < n_loop_samples`): `pos_w < 0` is
false and `n_loop_samples - 0 ≤ pos_w` is false, so the division by
`n_fade_samples` is never performed and the capture coefficient is the
initial `1`. -/
theorem zero_fade_coeff_one (n_loop pos_w : ℤ)
    (h0 : 0 ≤ pos_w) (h1 : pos_w < n_loop) :
    captureCoeff 0 n_loop pos_w = 1 := by
  rw [captureCoeff, if_neg (by omega), if_neg (by omega)]

/-- Witness for `zero_fade_coeff_one` at `n_loop_samples = 5`, `pos_w = 3`. -/
theorem zero_fade_coeff_one_witness :
    (0 : ℤ) ≤ 3 ∧ (3 : ℤ) < 5 ∧ captureCoeff 0 5 3 = 1 :=
  ⟨by decide, by decide, zero_fade_coeff_one 5 3 (by decide) (by decide)⟩

/-- Claim C4: while looping and not listening, each output sample is the
dry input times the smoothed dry gain plus a wet sample times the smoothed
wet gain, where the wet sample is `buffer[pos_r] +
buffer[pos_r - (n_loop_samples - n_fade_samples)]` when the read cursor is
in the crossfade region (`pos_r ≥ n_loop_samples - n_fade_samples`) and
`buffer[pos_r]` alone otherwise, per channel. -/
theorem playback_wet_output (tdry twet inl inr : ℚ) (s : BollieRetain)
    (hloop : s.looping = true) (hlisten : s.listening = false) :
    (step tdry twet inl inr s).2 =
      (inl * smooth tdry s.dry_gain +
         (if s.n_loop_samples - s.n_fade_samples ≤ s.pos_r then
            s.buffer_l s.pos_r +
              s.buffer_l (s.pos_r - (s.n_loop_samples - s.n_fade_samples))
          else s.buffer_l s.pos_r) * smooth twet s.wet_gain,
       inr * smooth tdry s.dry_gain +
         (if s.n_loop_samples - s.n_fade_samples ≤ s.pos_r then
            s.buffer_r s.pos_r +
              s.buffer_r (s.pos_r - (s.n_loop_samples - s.n_fade_samples))
          else s.buffer_r s.pos_r) * smooth twet s.wet_gain) := by
  simp [step, hloop, hlisten]

/-- Witness for `playback_wet_output` on `csPlay` (crossfade region:
`pos_r = 3 ≥ 4 - 1`): wet left `= buffer_l 3 + buffer_l 0 = 3`, wet right
`= 6`, both gains smoothed from `0` toward `1` give `1/100`. -/
theorem playback_wet_output_witness :
    (step 1 1 2 3 csPlay).2 = (1/20, 9/100) :=
  (playback_wet_output 1 1 2 3 csPlay rfl rfl).trans (by
    norm_num [csPlay, smooth])

/-- Claim C5: during playback with no pending re-trigger (`looping = true`,
`listening = false`), when the read cursor is incremented to
`n_loop_samples` it is reset to `n_fade_samples`, not to `0`. -/
theorem read_cursor_wraps_to_fade (tdry twet inl inr : ℚ) (s : BollieRetain)
    (hloop : s.looping = true) (hlisten : s.listening = false)
    (hend : s.pos_r + 1 = s.n_loop_samples) :
    ((step tdry twet inl inr s).1).pos_r = s.n_fade_samples := by
  simp [step, hloop, hlisten, hend.symm]

/-- Witness for `read_cursor_wraps_to_fade` on `csPlay`
(`pos_r + 1 = 4 = n_loop_samples`, so the next `pos_r` is
`n_fade_samples = 1`). -/
theorem read_cursor_wraps_to_fade_witness :
    csPlay.looping = true ∧ csPlay.listening = false ∧
    csPlay.pos_r + 1 = csPlay.n_loop_samples ∧
    ((step 0 0 0 0 csPlay).1).pos_r = csPlay.n_fade_samples :=
  ⟨rfl, rfl, by decide,
    read_cursor_wraps_to_fade 0 0 0 0 csPlay rfl rfl (by decide)⟩

/-- Claim C6: the per-block gain targets follow the documented piecewise
law — `blend = 0` gives dry `1`, wet `0`; `0 < blend < 50` gives dry `1`,
wet `pow10 ((blend-50)*0.04)`; `blend = 50` gives `1`, `1`;
`50 < blend < 100` gives dry `pow10 ((blend-50)*(-0.04))`, wet `1`;
`blend = 100` gives dry `0`, wet `1`; any other value (negative or above
`100`) falls through to the default dry `1`, wet `0` (the function is
total, so no crash). -/
theorem target_gains_piecewise (pow10 : ℚ → ℚ) (ctl_blend : ℚ) :
    (ctl_blend = 0 → targetGains pow10 ctl_blend = (1, 0)) ∧
    (0 < ctl_blend ∧ ctl_blend < 50 →
      targetGains pow10 ctl_blend = (1, pow10 ((ctl_blend - 50) * (4/100)))) ∧
    (ctl_blend = 50 → targetGains pow10 ctl_blend = (1, 1)) ∧
    (50 < ctl_blend ∧ ctl_blend < 100 →
      targetGains pow10 ctl_blend = (pow10 ((ctl_blend - 50) * (-(4/100))), 1)) ∧
    (ctl_blend = 100 → targetGains pow10 ctl_blend = (0, 1)) ∧
    (ctl_blend < 0 ∨ 100 < ctl_blend → targetGains pow10 ctl_blend = (1, 0)) := by
  refine ⟨?_, ?_, ?_, ?_, ?_, ?_⟩
  · rintro rfl; norm_num [targetGains]
  · rintro ⟨h1, h2⟩
    simp only [targetGains]
    rw [if_pos ⟨h1, h2⟩]
  · rintro rfl; norm_num [targetGains]
  · rintro ⟨h1, h2⟩
    simp only [targetGains]
    rw [if_neg (by rintro ⟨a, b⟩; linarith), if_pos ⟨h2, h1⟩]
  · rintro rfl; norm_num [targetGains]
  · intro h
    simp only [targetGains]
    rcases h with h | h
    · rw [if_neg (by rintro ⟨a, b⟩; linarith),
          if_neg (by rintro ⟨a, b⟩; linarith),
          if_neg (by intro a; subst a; norm_num at h),
          if_neg (by intro a; subst a; norm_num at h)]
    · rw [if_neg (by rintro ⟨a, b⟩; linarith),
          if_neg (by rintro ⟨a, b⟩; linarith),
          if_neg (by intro a; subst a; norm_num at h),
          if_neg (by intro a; subst a; norm_num at h)]

/-- Witness for `target_gains_piecewise`: with `pow10` instantiated to the
identity function and `blend = 25`, the second case gives wet gain
`(25 - 50) * (4/100) = -1`. -/
theorem target_gains_piecewise_witness :
    targetGains (fun x => x) 25 = (1, -1) :=
  ((target_gains_piecewise (fun x => x) 25).2.1 (by norm_num)).trans
    (by norm_num)

/-- Claim C7: on every processed sample, in every state-machine phase,
both gains are updated by exactly `gain = target*0.01 + gain*0.99`, and
iterating the smoother `n` times against a constant target leaves exactly
`0.99^n` of the initial error `|g - target|`. -/
theorem gain_smoothing_geometric :
    (∀ (tdry twet inl inr : ℚ) (s : BollieRetain),
        ((step tdry twet inl inr s).1).dry_gain =
          tdry * (1/100) + s.dry_gain * (99/100) ∧
        ((step tdry twet inl inr s).1).wet_gain =
          twet * (1/100) + s.wet_gain * (99/100)) ∧
    (∀ (target g : ℚ) (n : ℕ),
        |(smooth target)^[n] g - target| = (99/100) ^ n * |g - target|) := by
  constructor
  · intro tdry twet inl inr s
    constructor <;> (simp only [step, smooth]; split_ifs <;> rfl)
  · intro target g n
    induction n with
    | zero => simp
    | succ n ih =>
        rw [Function.iterate_succ_apply']
        have h : smooth target ((smooth target)^[n] g) - target =
            (99/100) * ((smooth target)^[n] g - target) := by
          simp only [smooth]; ring
        rw [h, abs_mul, ih, abs_of_pos (show (0:ℚ) < 99/100 by norm_num)]
        ring

/-- Claim C9 (code bug): `instantiate` has no capacity check and no failure
path.  At sample rate `200000` it returns a usable instance whose
`n_loop_samples = 5 * 200000 = 1000000` exceeds the buffer capacity
`MAX_TAPE_LEN = 960000`, so capture would write past the end of both
buffers instead of the construction failing explicitly. -/
theorem instantiate_no_capacity_check :
    (instantiate 200000).n_loop_samples = 1000000 ∧
    MAX_TAPE_LEN < (instantiate 200000).n_loop_samples := by
  constructor <;> norm_num [instantiate, MAX_TAPE_LEN]

theorem step_preserves_lengths (tdry twet inl inr : ℚ) (s : BollieRetain) :
    ((step tdry twet inl inr s).1).n_loop_samples = s.n_loop_samples ∧
    ((step tdry twet inl inr s).1).n_fade_samples = s.n_fade_samples := by
  constructor <;> (simp only [step]; split_ifs <;> rfl)

theorem step_cursor_bounds (tdry twet inl inr : ℚ) (s : BollieRetain)
    (hf0 : 0 ≤ s.n_fade_samples) (hfl : s.n_fade_samples < s.n_loop_samples)
    (hw0 : 0 ≤ s.pos_w) (hwl : s.pos_w ≤ s.n_loop_samples)
    (hr0 : 0 ≤ s.pos_r) (hrl : s.pos_r < s.n_loop_samples) :
    (∀ i ∈ stepAccesses s, 0 ≤ i ∧ i < s.n_loop_samples) ∧
    0 ≤ ((step tdry twet inl inr s).1).pos_w ∧
    ((step tdry twet inl inr s).1).pos_w ≤ s.n_loop_samples ∧
    0 ≤ ((step tdry twet inl inr s).1).pos_r ∧
    ((step tdry twet inl inr s).1).pos_r < s.n_loop_samples := by
  simp only [step, stepAccesses]
  split_ifs <;> simp_all <;> omega

theorem processBlock_cursor_bounds (tdry twet : ℚ) (inputs : List (ℚ × ℚ))
    (s : BollieRetain)
    (hf0 : 0 ≤ s.n_fade_samples) (hfl : s.n_fade_samples < s.n_loop_samples)
    (hw0 : 0 ≤ s.pos_w) (hwl : s.pos_w ≤ s.n_loop_samples)
    (hr0 : 0 ≤ s.pos_r) (hrl : s.pos_r < s.n_loop_samples) :
    (∀ i ∈ blockAccesses tdry twet inputs s, 0 ≤ i ∧ i < s.n_loop_samples) ∧
    0 ≤ ((processBlock tdry twet inputs s).1).pos_w ∧
    ((processBlock tdry twet inputs s).1).pos_w ≤ s.n_loop_samples ∧
    0 ≤ ((processBlock tdry twet inputs s).1).pos_r ∧
    ((processBlock tdry twet inputs s).1).pos_r < s.n_loop_samples := by
  induction inputs generalizing s with
  | nil =>
      simp only [processBlock, blockAccesses]
      exact ⟨by simp, hw0, hwl, hr0, hrl⟩
  | cons p rest ih =>
      obtain ⟨il, ir⟩ := p
      have hstep := step_cursor_bounds tdry twet il ir s hf0 hfl hw0 hwl hr0 hrl
      have hlen := step_preserves_lengths tdry twet il ir s
      have ihres := ih ((step tdry twet il ir s).1)
        (by rw [hlen.2]; exact hf0)
        (by rw [hlen.1, hlen.2]; exact hfl)
        hstep.2.1 (by rw [hlen.1]; exact hstep.2.2.1)
        hstep.2.2.2.1 (by rw [hlen.1]; exact hstep.2.2.2.2)
      rw [hlen.1] at ihres
      simp only [processBlock, blockAccesses]
      refine ⟨?_, ihres.2.1, ihres.2.2.1, ihres.2.2.2.1, ihres.2.2.2.2⟩
      intro i hi
      rcases List.mem_append.mp hi with hi | hi
      · exact hstep.1 i hi
      · exact ihres.1 i hi

/-- Claim C10, counterexample: the claimed hypotheses allow
`n_fade_samples = n_loop_samples` (non-strict bound).  On `csDegenerate`
(`n_fade_samples = n_loop_samples = 1`, `pos_r = 0`, playback phase),
processing one sample wraps the read cursor to `n_fade_samples = 1 =
n_loop_samples`, which violates the claimed bound `pos_r < n_loop_samples`
on return. -/
theorem cursor_escape_when_fade_eq_loop :
    csDegenerate.n_fade_samples ≤ csDegenerate.n_loop_samples ∧
    csDegenerate.n_loop_samples ≤ MAX_TAPE_LEN ∧
    0 ≤ csDegenerate.pos_w ∧
    csDegenerate.pos_w ≤ csDegenerate.n_loop_samples ∧
    0 ≤ csDegenerate.pos_r ∧
    csDegenerate.pos_r < csDegenerate.n_loop_samples ∧
    ¬ (((run (fun x => x) 0 0 [(0, 0)] csDegenerate).1).pos_r <
        csDegenerate.n_loop_samples) := by
  refine ⟨by decide, by decide, by decide, by decide, by decide, by decide, ?_⟩
  norm_num [run, processBlock, step, csDegenerate, targetGains]

/-- Claim C10 (amended): the cursor-bounds invariant needs the strict
hypothesis `0 ≤ n_fade_samples < n_loop_samples` (the non-strict
`n_fade_samples ≤ n_loop_samples` fails, see the counterexample: the
read-cursor wrap target is `n_fade_samples` itself).  Under it, for every
`run` call with `n_loop_samples ≤ MAX_TAPE_LEN`, `pos_w ∈ [0,
n_loop_samples]` and `pos_r ∈ [0, n_loop_samples)`, every buffer index
read or written during the block lies in `[0, n_loop_samples)`, and on
return `pos_w` is again in `[0, n_loop_samples]` and `pos_r` in
`[0, n_loop_samples)`. -/
theorem run_cursor_bounds (pow10 : ℚ → ℚ) (ctl_trigger ctl_blend : ℚ)
    (inputs : List (ℚ × ℚ)) (s : BollieRetain)
    (hf0 : 0 ≤ s.n_fade_samples) (hfl : s.n_fade_samples < s.n_loop_samples)
    (hlm : s.n_loop_samples ≤ MAX_TAPE_LEN)
    (hw0 : 0 ≤ s.pos_w) (hwl : s.pos_w ≤ s.n_loop_samples)
    (hr0 : 0 ≤ s.pos_r) (hrl : s.pos_r < s.n_loop_samples) :
    (∀ i ∈ runAccesses pow10 ctl_trigger ctl_blend inputs s,
        0 ≤ i ∧ i < s.n_loop_samples) ∧
    0 ≤ ((run pow10 ctl_trigger ctl_blend inputs s).1).pos_w ∧
    ((run pow10 ctl_trigger ctl_blend inputs s).1).pos_w ≤ s.n_loop_samples ∧
    0 ≤ ((run pow10 ctl_trigger ctl_blend inputs s).1).pos_r ∧
    ((run pow10 ctl_trigger ctl_blend inputs s).1).pos_r < s.n_loop_samples :=
  processBlock_cursor_bounds (targetGains pow10 ctl_blend).1
    (targetGains pow10 ctl_blend).2 inputs
    { s with
      listening :=
        if 0 < ctl_trigger ∧ s.listening = false then true else s.listening }
    hf0 hfl hw0 hwl hr0 hrl

/-- Witness for `run_cursor_bounds` on `csSmall`
(`n_fade_samples = 1 < n_loop_samples = 2`), one-sample block. -/
theorem run_cursor_bounds_witness :
    (0 : ℤ) ≤ csSmall.n_fade_samples ∧
    csSmall.n_fade_samples < csSmall.n_loop_samples ∧
    csSmall.n_loop_samples ≤ MAX_TAPE_LEN ∧
    ((∀ i ∈ runAccesses (fun x => x) 0 0 [(1, 1)] csSmall,
        0 ≤ i ∧ i < csSmall.n_loop_samples) ∧
      0 ≤ ((run (fun x => x) 0 0 [(1, 1)] csSmall).1).pos_w ∧
      ((run (fun x => x) 0 0 [(1, 1)] csSmall).1).pos_w ≤
        csSmall.n_loop_samples ∧
      0 ≤ ((run (fun x => x) 0 0 [(1, 1)] csSmall).1).pos_r ∧
      ((run (fun x => x) 0 0 [(1, 1)] csSmall).1).pos_r <
        csSmall.n_loop_samples) :=
  ⟨by decide, by decide, by decide,
    run_cursor_bounds (fun x => x) 0 0 [(1, 1)] csSmall (by decide) (by decide)
      (by decide) (by decide) (by decide) (by decide) (by decide)⟩
